import Mathlib

/-!
Shallow embedding of the frame presentation pipeline of
`src/platform/qt/DisplayGL.cpp` (classes `PainterGL` and `DisplayGL`).

Buffers are identified by natural numbers; the constructor allocates the two
buffers `0` and `1` into the free pool (`m_free`).  The pending queue
(`m_queue`) holds `Option Nat`: `some b` is a pending frame in buffer `b`,
`none` is the null "skip" marker enqueued when the producer posts a null
frame.  External collaborators (the GL backend, the display surface, the
core-sync handshake and memcpy) are modelled by event counters and traces on
the state; inputs read from the producer side (`mCoreSyncWaitFrameStart`
result, `sync.videoFrameWait`) are passed as parameters.
-/

/-- State of a `PainterGL` object.  Fields mirror the C++ members; the trace
fields record the calls made to external collaborators. -/
structure PainterGL where
  /-- `m_free`: QList of free buffers. `takeLast` removes the last element,
  `append` adds at the end. -/
  free : List Nat
  /-- `m_queue`: QQueue of pending entries; head of the list is the front.
  `none` is a null skip-marker. -/
  queue : List (Option Nat)
  /-- `m_active` -/
  active : Bool
  /-- `m_started` -/
  started : Bool
  /-- `m_frameReady` -/
  frameReady : Bool
  /-- `m_needsUnlock` -/
  needsUnlock : Bool
  /-- `m_swapTimer.isActive()` -/
  swapTimerActive : Bool
  /-- `m_gl->isValid()` -/
  glValid : Bool
  /-- whether the GL context is current on the painter side (`makeCurrent`
  sets it, `doneCurrent` clears it) -/
  glCurrent : Bool
  /-- whether `m_gl` has been moved to the painter thread -/
  glOnPainterThread : Bool
  /-- `m_context` (shared pointer to the core controller) is non-null -/
  hasContext : Bool
  /-- `m_size` (widget size passed to `resize`) -/
  size : Nat × Nat
  /-- trace of buffers handed to `m_backend->postFrame` -/
  posts : List Nat
  /-- number of `m_backend->drawFrame` calls (inside `performDraw`) -/
  draws : Nat
  /-- number of `m_backend->clear` calls -/
  clears : Nat
  /-- number of `m_gl->swapBuffers(m_surface)` calls (presents to the
  display surface) -/
  surfaceSwaps : Nat
  /-- trace of memcpy operations into a buffer: (destination buffer, frame
  payload copied) -/
  copies : List (Nat × Nat)
  /-- number of `mCoreSyncWaitFrameEnd` calls (producer handshake release) -/
  frameEnds : Nat
  /-- number of queued re-invocations of `draw` (via `QTimer::singleShot` or
  `QMetaObject::invokeMethod` with a queued connection) -/
  scheduledDraws : Nat
  /-- set when the code performs `memcpy` with a null destination
  (undefined behavior in the C++ source) -/
  nullCopy : Bool
  /-- set when the code performs `m_queue.dequeue()` on an empty queue
  (undefined behavior in the C++ source) -/
  ubEmptyDequeue : Bool
  deriving Repr, DecidableEq

/-- The state after the `PainterGL` constructor: two buffers are allocated
into the free pool, the single-shot swap timer is armed but not started, and
the GL context was created successfully (`m_gl->isValid()`). -/
def initPainter : PainterGL :=
  { free := [0, 1]
    queue := []
    active := false
    started := false
    frameReady := false
    needsUnlock := false
    swapTimerActive := false
    glValid := true
    glCurrent := false
    glOnPainterThread := false
    hasContext := false
    size := (0, 0)
    posts := []
    draws := 0
    clears := 0
    surfaceSwaps := 0
    copies := []
    frameEnds := 0
    scheduledDraws := 0
    nullCopy := false
    ubEmptyDequeue := false }

/-- The non-null entries of the pending queue, in order. -/
def nonNulls (q : List (Option Nat)) : List Nat := q.filterMap id

/-- `PainterGL::enqueue(const uint32_t* backing)`.  `backing = some p` is a
non-null source with payload `p`; `none` is a null source.  Mirrors:
if the source is non-null, take a buffer from the free pool (`takeLast`),
falling back to `m_queue.dequeue()` (the front, i.e. oldest entry) when the
free pool is empty, memcpy the source into it, and enqueue it; a null source
enqueues a null marker directly. -/
def PainterGL.enqueue (backing : Option Nat) (s : PainterGL) : PainterGL :=
  match backing with
  | none =>
      -- buffer stays nullptr; m_queue.enqueue(buffer)
      { s with queue := s.queue ++ [none] }
  | some p =>
      if s.free.isEmpty then
        match s.queue with
        | [] =>
            -- m_queue.dequeue() on an empty QQueue: undefined behavior
            { s with ubEmptyDequeue := true }
        | e :: rest =>
            match e with
            | some b =>
                -- buffer = front entry; memcpy(buffer, backing, ...);
                -- m_queue.enqueue(buffer)
                { s with queue := rest ++ [some b],
                         copies := s.copies ++ [(b, p)] }
            | none =>
                -- the reclaimed entry is the null marker:
                -- memcpy(nullptr, backing, ...) - undefined behavior;
                -- m_queue.enqueue(nullptr)
                { s with queue := rest ++ [none], nullCopy := true }
      else
        match s.free.getLast? with
        | none => s
        | some b =>
            -- buffer = m_free.takeLast(); memcpy; m_queue.enqueue(buffer)
            { s with free := s.free.dropLast,
                     copies := s.copies ++ [(b, p)],
                     queue := s.queue ++ [some b] }

/-- `PainterGL::dequeue()`: pop the front of the pending queue; if it is
non-null, hand it to `m_backend->postFrame` and then return it to the free
pool; a null marker is consumed silently. -/
def PainterGL.dequeue (s : PainterGL) : PainterGL :=
  match s.queue with
  | [] => s
  | e :: rest =>
      match e with
      | some b =>
          { s with queue := rest,
                   posts := s.posts ++ [b],
                   free := s.free ++ [b] }
      | none => { s with queue := rest }

/-- The loop of `PainterGL::dequeueAll`: `buffer` starts as `nullptr`
(`none`); each iteration dequeues the front into `buffer` and, when it is
non-null, appends it to the free pool.  Returns the final free pool and the
final value of `buffer` (the last entry dequeued, null or not). -/
def drainLoop : List (Option Nat) → List Nat → Option Nat → List Nat × Option Nat
  | [], free, buf => (free, buf)
  | e :: rest, free, _ =>
      drainLoop rest (match e with | some b => free ++ [b] | none => free) e

/-- `PainterGL::dequeueAll()`: drain the whole queue returning non-null
buffers to the free pool, then call `m_backend->postFrame` on the final
value of `buffer` if it is non-null. -/
def PainterGL.dequeueAll (s : PainterGL) : PainterGL :=
  let r := drainLoop s.queue s.free none
  let s1 := { s with queue := [], free := r.1 }
  match r.2 with
  | some b => { s1 with posts := s1.posts ++ [b] }
  | none => s1

/-- The body of the `m_backend->swap` lambda installed in the constructor:
if the swap timer is not active, start it. -/
def PainterGL.backendSwap (s : PainterGL) : PainterGL :=
  if s.swapTimerActive then s else { s with swapTimerActive := true }

/-- `PainterGL::performDraw()`: `m_backend->resized`, `m_backend->drawFrame`,
optional message-painter overlay, then set `m_frameReady`. -/
def PainterGL.performDraw (s : PainterGL) : PainterGL :=
  { s with draws := s.draws + 1, frameReady := true }

/-- `PainterGL::forceDraw()`: begin painting, `performDraw`, end painting,
then `m_backend->swap` (the timer-starting lambda). -/
def PainterGL.forceDraw (s : PainterGL) : PainterGL :=
  (s.performDraw).backendSwap

/-- `PainterGL::draw()`.  `wfs` is the value returned by
`mCoreSyncWaitFrameStart(&sync)` and `vfw` the value of
`sync.videoFrameWait`, both owned by the producer side. -/
def PainterGL.draw (wfs vfw : Bool) (s : PainterGL) : PainterGL :=
  if s.queue.isEmpty then s
  else if s.needsUnlock then
    -- QTimer::singleShot(0, this, &PainterGL::draw): re-scheduled, not run
    { s with scheduledDraws := s.scheduledDraws + 1 }
  else if wfs || !s.queue.isEmpty then
    let s1 := s.dequeue
    let s2 := s1.forceDraw
    if vfw then { s2 with needsUnlock := true }
    else { s2 with frameEnds := s2.frameEnds + 1 }
  else
    { s with frameEnds := s.frameEnds + 1 }

/-- `PainterGL::swap()` (the pacing-timer expiry handler). -/
def PainterGL.swap (s : PainterGL) : PainterGL :=
  if !s.glValid then s
  else
    let s1 :=
      if s.frameReady then
        -- m_gl->swapBuffers(m_surface); m_gl->makeCurrent(m_surface);
        -- m_frameReady = false
        { s with surfaceSwaps := s.surfaceSwaps + 1, glCurrent := true,
                 frameReady := false }
      else s
    let s2 :=
      if s1.needsUnlock then
        -- mCoreSyncWaitFrameEnd(&sync); m_needsUnlock = false
        { s1 with frameEnds := s1.frameEnds + 1, needsUnlock := false }
      else s1
    if s2.queue.isEmpty then
      -- m_swapTimer.start()
      { s2 with swapTimerActive := true }
    else
      -- QMetaObject::invokeMethod(this, "draw", Qt::QueuedConnection)
      { s2 with scheduledDraws := s2.scheduledDraws + 1 }

/-- `PainterGL::start()`: make the context current on the painter thread,
attach shaders if any, set `m_active` and `m_started`. -/
def PainterGL.start (s : PainterGL) : PainterGL :=
  { s with glCurrent := true, active := true, started := true }

/-- `PainterGL::pause()` -/
def PainterGL.pause (s : PainterGL) : PainterGL :=
  { s with active := false }

/-- `PainterGL::unpause()` -/
def PainterGL.unpause (s : PainterGL) : PainterGL :=
  { s with active := true }

/-- `PainterGL::resize(const QSize&)` -/
def PainterGL.resize (sz : Nat × Nat) (s : PainterGL) : PainterGL :=
  let s1 := { s with size := sz }
  if s1.started && !s1.active then s1.forceDraw else s1

/-- `PainterGL::stop()`: clear the activity flags, drain the queue, clear
the backend surface, request a swap (which starts the timer through the
backend-swap lambda), flush a pending swap if the timer is active, reset the
video proxy, release the GL context and move it (and the painter) back to
the surface thread, and drop the core-controller reference. -/
def PainterGL.stop (s : PainterGL) : PainterGL :=
  let s1 := { s with active := false, started := false }
  let s2 := s1.dequeueAll
  let s3 := { s2 with clears := s2.clears + 1 }
  let s4 := s3.backendSwap
  let s5 :=
    if s4.swapTimerActive then
      let s5a := s4.swap
      { s5a with swapTimerActive := false }
    else s4
  -- m_videoProxy->reset(); m_gl->doneCurrent();
  -- m_gl->moveToThread(m_surface->thread()); m_context.reset();
  -- moveToThread(m_gl->thread()); m_videoProxy->moveToThread(...)
  { s5 with glCurrent := false, glOnPainterThread := false,
            hasContext := false }

/-- State of a `DisplayGL` widget, wrapping its `PainterGL`. -/
structure DisplayGL where
  painter : PainterGL
  /-- `m_drawThread` is non-null -/
  drawThread : Bool
  /-- `m_isDrawing` -/
  isDrawing : Bool
  /-- `DisplayGL::m_context` (shared pointer) is non-null -/
  dispContext : Bool
  deriving Repr, DecidableEq

/-- `DisplayGL::startDrawing(controller)`: if a draw thread already exists,
return immediately; otherwise set up the painter, create the draw thread,
move the GL context and painter to it, and start the painter (the thread's
`started` signal is connected to `PainterGL::start`).  Configuration
re-application (aspect lock, integer scaling, filter, message painter,
`resizePainter`) touches only collaborator state not modelled here. -/
def DisplayGL.startDrawing (d : DisplayGL) : DisplayGL :=
  if d.drawThread then d
  else
    -- m_isDrawing = true; m_painter->setContext(controller);
    -- m_context = controller; m_painter->resize(size());
    let p0 := { d.painter with hasContext := true }
    let p1 := p0.resize p0.size
    -- m_gl->doneCurrent(); m_gl->moveToThread(m_drawThread);
    -- m_drawThread->start() fires PainterGL::start on the new thread
    let p2 := { p1 with glCurrent := false, glOnPainterThread := true }
    let p3 := p2.start
    { d with painter := p3, drawThread := true, isDrawing := true,
             dispContext := true }

/-- `DisplayGL::stopDrawing()`: if a draw thread exists, interrupt the core,
run a blocking `PainterGL::stop`, exit and forget the thread, and make the
GL context current on the widget's thread again; in all cases release the
controller reference. -/
def DisplayGL.stopDrawing (d : DisplayGL) : DisplayGL :=
  if d.drawThread then
    let p1 := d.painter.stop
    -- m_drawThread->exit(); m_drawThread = nullptr;
    -- m_gl->makeCurrent(windowHandle())
    let p2 := { p1 with glCurrent := true }
    { d with isDrawing := false, painter := p2, drawThread := false,
             dispContext := false }
  else
    { d with dispContext := false }

/-- One step of the painter state machine: any of the operations that the
surrounding `DisplayGL`, the producer, or the timers can invoke on a
`PainterGL`.  Producer-side inputs (frame payload, handshake results) are
existentially supplied by the step. -/
inductive PStep : PainterGL → PainterGL → Prop where
  | enq (src : Option Nat) (s : PainterGL) : PStep s (s.enqueue src)
  | deq (s : PainterGL) : PStep s s.dequeue
  | deqAll (s : PainterGL) : PStep s s.dequeueAll
  | drawStep (wfs vfw : Bool) (s : PainterGL) : PStep s (s.draw wfs vfw)
  | swapStep (s : PainterGL) : PStep s s.swap
  | startStep (s : PainterGL) : PStep s s.start
  | pauseStep (s : PainterGL) : PStep s s.pause
  | unpauseStep (s : PainterGL) : PStep s s.unpause
  | stopStep (s : PainterGL) : PStep s s.stop
  | forceDrawStep (s : PainterGL) : PStep s s.forceDraw
  | resizeStep (sz : Nat × Nat) (s : PainterGL) : PStep s (s.resize sz)

/-- The painter states reachable from the freshly constructed painter. -/
inductive PReachable : PainterGL → Prop where
  | init : PReachable initPainter
  | step {s s' : PainterGL} : PReachable s → PStep s s' → PReachable s'

/-- The buffer-ownership invariant: the free pool together with the non-null
pending entries is a permutation of the two buffers allocated by the
constructor (so the pools are disjoint, duplicate-free, and no buffer is
ever created or lost), every buffer ever handed to the backend is one of
the two, and the GL context stays valid. -/
def PoolInv (s : PainterGL) : Prop :=
  (s.free ++ nonNulls s.queue).Perm [0, 1] ∧
  (∀ b ∈ s.posts, b = 0 ∨ b = 1) ∧
  s.glValid = true

/-- The free pool contents and the remaining queue at the instant
`PainterGL::dequeue` calls `m_backend->postFrame`, with the buffer posted
(when a post occurs): the front has been removed from the queue and the
buffer has not yet been appended to the free pool. -/
def dequeuePostMoment (s : PainterGL) : Option (Nat × List Nat × List (Option Nat)) :=
  match s.queue with
  | some b :: rest => some (b, s.free, rest)
  | _ => none

/-- The free pool contents and the (drained, empty) queue at the instant
`PainterGL::dequeueAll` calls `m_backend->postFrame`, with the buffer
posted: the loop has already appended every non-null entry, the posted one
included, to the free pool. -/
def dequeueAllPostMoment (s : PainterGL) : Option (Nat × List Nat × List (Option Nat)) :=
  let r := drainLoop s.queue s.free none
  match r.2 with
  | some b => some (b, r.1, [])
  | none => none

/-- The destination, the free pool contents and the queue contents at the
instant `PainterGL::enqueue` executes `memcpy`: the chosen entry has already
been removed from whichever pool held it.  A `none` destination is the
null-marker reclamation case (memcpy into a null pointer). -/
def enqueueCopyMoment (backing : Option Nat) (s : PainterGL) :
    Option (Option Nat × List Nat × List (Option Nat)) :=
  match backing with
  | none => none
  | some _ =>
      if s.free.isEmpty then
        match s.queue with
        | [] => none
        | e :: rest => some (e, s.free, rest)
      else
        match s.free.getLast? with
        | none => none
        | some b => some (some b, s.free.dropLast, s.queue)

section HelperLemmas

@[simp] theorem nonNulls_nil : nonNulls [] = [] := rfl

@[simp] theorem nonNulls_cons_some (b : Nat) (q : List (Option Nat)) :
    nonNulls (some b :: q) = b :: nonNulls q := rfl

@[simp] theorem nonNulls_cons_none (q : List (Option Nat)) :
    nonNulls (none :: q) = nonNulls q := rfl

@[simp] theorem nonNulls_append (q r : List (Option Nat)) :
    nonNulls (q ++ r) = nonNulls q ++ nonNulls r := by
  simp [nonNulls]

theorem mem_nonNulls {b : Nat} {q : List (Option Nat)} :
    b ∈ nonNulls q ↔ some b ∈ q := by
  simp [nonNulls, List.mem_filterMap]

theorem drainLoop_fst (q : List (Option Nat)) :
    ∀ free buf, (drainLoop q free buf).1 = free ++ nonNulls q := by
  induction q with
  | nil => intro free buf; simp [drainLoop]
  | cons e rest ih =>
      intro free buf
      cases e with
      | some b => simp [drainLoop, ih]
      | none => simp [drainLoop, ih]

theorem drainLoop_snd (q : List (Option Nat)) :
    ∀ free buf, (drainLoop q free buf).2 = q.getLast?.getD buf := by
  induction q with
  | nil => intro free buf; simp [drainLoop]
  | cons e rest ih =>
      intro free buf
      have h1 : (drainLoop (e :: rest) free buf).2 =
          (drainLoop rest (match e with | some b => free ++ [b] | none => free) e).2 := rfl
      rw [h1, ih]
      cases rest with
      | nil => simp
      | cons f t =>
          have hg := List.getLast?_eq_getLast (f :: t) (by simp)
          simp [hg]

/-- Characterization of `PainterGL::dequeueAll`: the queue empties, the
non-null entries move to the free pool in order, and the final entry of the
queue is posted when (and only when) it is non-null. -/
theorem dequeueAll_eq (s : PainterGL) :
    s.dequeueAll = { s with
      queue := []
      free := s.free ++ nonNulls s.queue
      posts := s.posts ++ (s.queue.getLast?.getD none).toList } := by
  unfold PainterGL.dequeueAll
  rw [show (drainLoop s.queue s.free none) =
        (s.free ++ nonNulls s.queue, s.queue.getLast?.getD none) from
      Prod.ext (drainLoop_fst s.queue s.free none) (drainLoop_snd s.queue s.free none)]
  cases h : s.queue.getLast?.getD none <;> simp

theorem getLast?_some_mem {q : List (Option Nat)} {b : Nat}
    (h : q.getLast? = some (some b)) : some b ∈ q := by
  obtain ⟨hne, heq⟩ := List.mem_getLast?_eq_getLast h
  exact heq ▸ List.getLast_mem hne

theorem mem_two_of_pool {s : PainterGL} (h : PoolInv s) {b : Nat}
    (hb : b ∈ s.free ++ nonNulls s.queue) : b = 0 ∨ b = 1 := by
  have := h.1.mem_iff.mp hb
  simpa using this

/-- Case equation: enqueueing a null source just appends a null marker. -/
theorem enqueue_none_eq (s : PainterGL) :
    s.enqueue none = { s with queue := s.queue ++ [none] } := rfl

/-- Case equation: with a non-empty free pool, enqueue takes the last free
buffer, copies into it and appends it to the queue. -/
theorem enqueue_some_free_eq (s : PainterGL) (p : Nat) {f : List Nat} {b : Nat}
    (hf : s.free = f ++ [b]) :
    s.enqueue (some p) = { s with free := f,
                                  copies := s.copies ++ [(b, p)],
                                  queue := s.queue ++ [some b] } := by
  have hne : s.free.isEmpty = false := by simp [hf]
  have hlast : s.free.getLast? = some b := by simp [hf]
  have hdl : s.free.dropLast = f := by simp [hf]
  simp [PainterGL.enqueue, hne, hlast, hdl]

/-- Case equation: with an empty free pool, enqueue reclaims the front of
the queue; a non-null front is copied into and re-appended. -/
theorem enqueue_some_reclaim_eq (s : PainterGL) (p b : Nat)
    {rest : List (Option Nat)} (hf : s.free = []) (hq : s.queue = some b :: rest) :
    s.enqueue (some p) = { s with queue := rest ++ [some b],
                                  copies := s.copies ++ [(b, p)] } := by
  simp [PainterGL.enqueue, hf, hq]

/-- Case equation: with an empty free pool and a null marker at the front,
enqueue performs a null-destination memcpy (undefined behavior) and
re-appends the null marker. -/
theorem enqueue_some_nullfront_eq (s : PainterGL) (p : Nat)
    {rest : List (Option Nat)} (hf : s.free = []) (hq : s.queue = none :: rest) :
    s.enqueue (some p) = { s with queue := rest ++ [none], nullCopy := true } := by
  simp [PainterGL.enqueue, hf, hq]

theorem poolInv_enqueue (src : Option Nat) {s : PainterGL} (h : PoolInv s) :
    PoolInv (s.enqueue src) := by
  obtain ⟨h1, h2, h3⟩ := h
  cases src with
  | none =>
      rw [enqueue_none_eq]
      exact ⟨by simpa using h1, h2, h3⟩
  | some p =>
      rcases List.eq_nil_or_concat s.free with hf | ⟨f, b, hf⟩
      · cases hq : s.queue with
        | nil =>
            have he : s.enqueue (some p) = { s with ubEmptyDequeue := true } := by
              simp [PainterGL.enqueue, hf, hq]
            rw [he]
            exact ⟨h1, h2, h3⟩
        | cons e rest =>
            cases e with
            | some c =>
                rw [enqueue_some_reclaim_eq s p c hf hq]
                refine ⟨?_, h2, h3⟩
                show (s.free ++ nonNulls (rest ++ [some c])).Perm [0, 1]
                rw [hf, hq] at h1
                simp only [List.nil_append, nonNulls_cons_some] at h1
                rw [hf]
                simp only [List.nil_append, nonNulls_append, nonNulls_cons_some,
                  nonNulls_nil]
                exact List.perm_append_comm.trans h1
            | none =>
                rw [enqueue_some_nullfront_eq s p hf hq]
                refine ⟨?_, h2, h3⟩
                show (s.free ++ nonNulls (rest ++ [none])).Perm [0, 1]
                rw [hf, hq] at h1
                simp only [List.nil_append, nonNulls_cons_none] at h1
                rw [hf]
                simpa using h1
      · rw [List.concat_eq_append] at hf
        rw [enqueue_some_free_eq s p hf]
        refine ⟨?_, h2, h3⟩
        show (f ++ nonNulls (s.queue ++ [some b])).Perm [0, 1]
        rw [hf] at h1
        have hstep : (f ++ nonNulls (s.queue ++ [some b])).Perm
            ((f ++ [b]) ++ nonNulls s.queue) := by
          simp only [nonNulls_append, nonNulls_cons_some, nonNulls_nil,
            List.append_assoc]
          exact List.Perm.append_left f
            (@List.perm_append_comm _ (nonNulls s.queue) [b])
        exact hstep.trans h1

/-- Case equation: dequeue of a non-null front posts it and returns it to
the free pool. -/
theorem dequeue_some_eq (s : PainterGL) {b : Nat} {rest : List (Option Nat)}
    (hq : s.queue = some b :: rest) :
    s.dequeue = { s with queue := rest,
                         posts := s.posts ++ [b],
                         free := s.free ++ [b] } := by
  simp [PainterGL.dequeue, hq]

/-- Case equation: dequeue of a null marker consumes it silently. -/
theorem dequeue_none_eq (s : PainterGL) {rest : List (Option Nat)}
    (hq : s.queue = none :: rest) :
    s.dequeue = { s with queue := rest } := by
  simp [PainterGL.dequeue, hq]

theorem poolInv_dequeue {s : PainterGL} (h : PoolInv s) : PoolInv s.dequeue := by
  obtain ⟨h1, h2, h3⟩ := h
  cases hq : s.queue with
  | nil =>
      have he : s.dequeue = s := by simp [PainterGL.dequeue, hq]
      rw [he]; exact ⟨h1, h2, h3⟩
  | cons e rest =>
      cases e with
      | some b =>
          rw [dequeue_some_eq s hq]
          have hbmem : b ∈ s.free ++ nonNulls s.queue := by simp [hq]
          refine ⟨?_, ?_, h3⟩
          · rw [hq] at h1
            simpa [List.append_assoc] using h1
          · intro c hc
            rcases List.mem_append.mp hc with hc | hc
            · exact h2 c hc
            · have : c = b := by simpa using hc
              subst this
              exact mem_two_of_pool ⟨h1, h2, h3⟩ hbmem
      | none =>
          rw [dequeue_none_eq s hq]
          refine ⟨?_, h2, h3⟩
          rw [hq] at h1
          simpa using h1

theorem poolInv_dequeueAll {s : PainterGL} (h : PoolInv s) : PoolInv s.dequeueAll := by
  obtain ⟨h1, h2, h3⟩ := h
  rw [dequeueAll_eq]
  refine ⟨by simpa using h1, ?_, h3⟩
  intro c hc
  rcases List.mem_append.mp hc with hc | hc
  · exact h2 c hc
  · cases hg : s.queue.getLast? with
    | none => simp [hg] at hc
    | some e =>
        cases e with
        | none => simp [hg] at hc
        | some b =>
            simp only [hg, Option.getD_some, Option.toList_some,
              List.mem_singleton] at hc
            subst hc
            have hmem : c ∈ s.free ++ nonNulls s.queue := by
              simp [mem_nonNulls.mpr (getLast?_some_mem hg)]
            exact mem_two_of_pool ⟨h1, h2, h3⟩ hmem

/-- Characterization of `PainterGL::swap` when the GL context is valid:
a ready frame is presented to the surface and the flag cleared, a held
producer handshake is released, and then either an immediate redraw is
scheduled (non-empty queue) or the pacing timer is rearmed. -/
theorem swap_eq (s : PainterGL) (hgl : s.glValid = true) :
    s.swap = { s with
      surfaceSwaps := s.surfaceSwaps + (if s.frameReady then 1 else 0)
      glCurrent := (if s.frameReady then true else s.glCurrent)
      frameReady := false
      frameEnds := s.frameEnds + (if s.needsUnlock then 1 else 0)
      needsUnlock := false
      swapTimerActive := (if s.queue.isEmpty then true else s.swapTimerActive)
      scheduledDraws := s.scheduledDraws + (if s.queue.isEmpty then 0 else 1) } := by
  obtain ⟨free, queue, active, started, frameReady, needsUnlock, swapTimerActive,
    glValid, glCurrent, glOnPainterThread, hasContext, size, posts, draws, clears,
    surfaceSwaps, copies, frameEnds, scheduledDraws, nullCopy, ubEmptyDequeue⟩ := s
  subst hgl
  cases frameReady <;> cases needsUnlock <;> cases queue <;> rfl

theorem poolInv_swap {s : PainterGL} (h : PoolInv s) : PoolInv s.swap := by
  rw [swap_eq s h.2.2]; exact h

theorem poolInv_backendSwap {s : PainterGL} (h : PoolInv s) : PoolInv s.backendSwap := by
  unfold PainterGL.backendSwap
  split <;> exact h

theorem poolInv_forceDraw {s : PainterGL} (h : PoolInv s) : PoolInv s.forceDraw := by
  unfold PainterGL.forceDraw
  exact poolInv_backendSwap h

theorem poolInv_draw (wfs vfw : Bool) {s : PainterGL} (h : PoolInv s) :
    PoolInv (s.draw wfs vfw) := by
  unfold PainterGL.draw
  split
  · exact h
  · split
    · exact h
    · split
      · dsimp only
        split
        · exact poolInv_forceDraw (poolInv_dequeue h)
        · exact poolInv_forceDraw (poolInv_dequeue h)
      · exact h

theorem poolInv_resize (sz : Nat × Nat) {s : PainterGL} (h : PoolInv s) :
    PoolInv (s.resize sz) := by
  unfold PainterGL.resize
  dsimp only
  split
  · exact poolInv_forceDraw h
  · exact h

theorem poolInv_stop {s : PainterGL} (h : PoolInv s) : PoolInv s.stop := by
  unfold PainterGL.stop
  dsimp only
  split
  · exact poolInv_swap (poolInv_backendSwap (poolInv_dequeueAll h))
  · exact poolInv_backendSwap (poolInv_dequeueAll h)

theorem poolInv_init : PoolInv initPainter := by
  refine ⟨by decide, ?_, rfl⟩
  intro b hb
  simp [initPainter] at hb

/-- Every reachable painter state satisfies the buffer-ownership
invariant. -/
theorem reachable_poolInv {s : PainterGL} (h : PReachable s) : PoolInv s := by
  induction h with
  | init => exact poolInv_init
  | step _ hs ih =>
      cases hs with
      | enq src s => exact poolInv_enqueue src ih
      | deq s => exact poolInv_dequeue ih
      | deqAll s => exact poolInv_dequeueAll ih
      | drawStep wfs vfw s => exact poolInv_draw wfs vfw ih
      | swapStep s => exact poolInv_swap ih
      | startStep s => exact ih
      | pauseStep s => exact ih
      | unpauseStep s => exact ih
      | stopStep s => exact poolInv_stop ih
      | forceDrawStep s => exact poolInv_forceDraw ih
      | resizeStep sz s => exact poolInv_resize sz ih

@[simp] theorem backendSwap_free (s : PainterGL) : s.backendSwap.free = s.free := by
  unfold PainterGL.backendSwap; split <;> rfl

@[simp] theorem backendSwap_queue (s : PainterGL) : s.backendSwap.queue = s.queue := by
  unfold PainterGL.backendSwap; split <;> rfl

@[simp] theorem forceDraw_free (s : PainterGL) : s.forceDraw.free = s.free := by
  unfold PainterGL.forceDraw; rw [backendSwap_free]; rfl

@[simp] theorem forceDraw_queue (s : PainterGL) : s.forceDraw.queue = s.queue := by
  unfold PainterGL.forceDraw; rw [backendSwap_queue]; rfl

/-- `dequeue` only moves a buffer between the two pools: the combined
contents are a permutation of what they were. -/
theorem pool_dequeue_perm (s : PainterGL) :
    (s.dequeue.free ++ nonNulls s.dequeue.queue).Perm
      (s.free ++ nonNulls s.queue) := by
  cases hq : s.queue with
  | nil =>
      have he : s.dequeue = s := by simp [PainterGL.dequeue, hq]
      rw [he]
      simp [hq]
  | cons e rest =>
      cases e with
      | some b =>
          rw [dequeue_some_eq s hq]
          show ((s.free ++ [b]) ++ nonNulls rest).Perm
            (s.free ++ nonNulls (some b :: rest))
          simp only [nonNulls_cons_some, List.append_assoc]
          exact List.Perm.refl _
      | none =>
          rw [dequeue_none_eq s hq]
          show (s.free ++ nonNulls rest).Perm (s.free ++ nonNulls (none :: rest))
          simp only [nonNulls_cons_none]
          exact List.Perm.refl _

/-- `draw` only moves a buffer between the two pools. -/
theorem pool_draw_perm (wfs vfw : Bool) (s : PainterGL) :
    ((s.draw wfs vfw).free ++ nonNulls (s.draw wfs vfw).queue).Perm
      (s.free ++ nonNulls s.queue) := by
  unfold PainterGL.draw
  split
  · exact List.Perm.refl _
  · split
    · exact List.Perm.refl _
    · split
      · dsimp only
        split
        · simpa using pool_dequeue_perm s
        · simpa using pool_dequeue_perm s
      · exact List.Perm.refl _

end HelperLemmas

/-- C1 counterexample: from a fresh painter, enqueue one real frame and then
a null frame; the queue then holds a non-null pending buffer (buffer `1`)
followed by a null skip-marker, yet `dequeueAll` submits nothing to the
backend (`posts` stays empty) - the trailing null marker suppresses the
submission of the last non-null buffer. -/
theorem C1_counterexample :
    PReachable ((initPainter.enqueue (some 5)).enqueue none) ∧
    nonNulls ((initPainter.enqueue (some 5)).enqueue none).queue = [1] ∧
    ((initPainter.enqueue (some 5)).enqueue none).dequeueAll.posts = [] :=
  ⟨PReachable.step (PReachable.step PReachable.init (PStep.enq (some 5) _))
      (PStep.enq none _),
    by decide, by decide⟩

/-- C1 (amended): `dequeueAll` returns every non-null pending buffer to the
free pool in order, empties the queue, and submits the final queue entry to
the backend's postFrame exactly when that final entry is non-null; when the
queue is empty or ends in a null skip-marker, nothing is submitted. -/
theorem C1_dequeueAll_amended (s : PainterGL) :
    s.dequeueAll.free = s.free ++ nonNulls s.queue ∧
    s.dequeueAll.queue = [] ∧
    s.dequeueAll.posts = s.posts ++ (s.queue.getLast?.getD none).toList := by
  rw [dequeueAll_eq]
  exact ⟨rfl, rfl, rfl⟩

/-- C2 counterexample: in the reachable state with one pending frame
(buffer `1`) and buffer `0` free, `dequeueAll` calls the backend's postFrame
at an instant when the submitted buffer is already in the free pool (the
loop appended it before the call), so the posted buffer is simultaneously
owned by the free pool. -/
theorem C2_counterexample :
    PReachable (initPainter.enqueue (some 5)) ∧
    dequeueAllPostMoment (initPainter.enqueue (some 5)) = some (1, [0, 1], []) ∧
    1 ∈ ([0, 1] : List Nat) :=
  ⟨PReachable.step PReachable.init (PStep.enq (some 5) _), by decide, by decide⟩

/-- C2 (amended): in every reachable state, the buffer handed to postFrame
by `dequeue` is in neither the free pool nor the pending queue at that
instant, and a memcpy destination chosen by `enqueue` (when it is an actual
buffer) is in neither pool at the instant of the copy; in `dequeueAll`,
however, the buffer handed to postFrame is no longer in the pending queue
but has already been appended to the free pool. -/
theorem C2_ownership_amended (s : PainterGL) (h : PReachable s) :
    (∀ b f q, dequeuePostMoment s = some (b, f, q) → b ∉ f ∧ some b ∉ q) ∧
    (∀ src b f q, enqueueCopyMoment src s = some (some b, f, q) →
      b ∉ f ∧ some b ∉ q) ∧
    (∀ b f q, dequeueAllPostMoment s = some (b, f, q) → some b ∉ q ∧ b ∈ f) := by
  obtain ⟨h1, h2, h3⟩ := reachable_poolInv h
  have hnd : (s.free ++ nonNulls s.queue).Nodup := h1.nodup_iff.mpr (by decide)
  refine ⟨?_, ?_, ?_⟩
  · intro b f q hm
    unfold dequeuePostMoment at hm
    cases hq : s.queue with
    | nil => rw [hq] at hm; exact absurd hm (by simp)
    | cons e rest =>
        cases e with
        | none => rw [hq] at hm; exact absurd hm (by simp)
        | some c =>
            rw [hq] at hm
            simp only [Option.some.injEq, Prod.mk.injEq] at hm
            obtain ⟨rfl, rfl, rfl⟩ := hm
            rw [hq, nonNulls_cons_some] at hnd
            obtain ⟨hnf, hnq, hdisj⟩ := List.nodup_append.mp hnd
            constructor
            · intro hbf
              exact (hdisj hbf) (List.mem_cons_self _ _)
            · intro hbq
              exact (List.nodup_cons.mp hnq).1 (mem_nonNulls.mpr hbq)
  · intro src b f q hm
    unfold enqueueCopyMoment at hm
    cases src with
    | none => exact absurd hm (by simp)
    | some p =>
        by_cases hfe : s.free.isEmpty
        · rw [if_pos hfe] at hm
          have hfnil : s.free = [] := List.isEmpty_iff.mp hfe
          cases hq : s.queue with
          | nil => rw [hq] at hm; exact absurd hm (by simp)
          | cons e rest =>
              rw [hq] at hm
              simp only [Option.some.injEq, Prod.mk.injEq] at hm
              obtain ⟨rfl, rfl, rfl⟩ := hm
              rw [hq, hfnil, nonNulls_cons_some, List.nil_append] at hnd
              constructor
              · rw [hfnil]; exact List.not_mem_nil _
              · intro hbq
                exact (List.nodup_cons.mp hnd).1 (mem_nonNulls.mpr hbq)
        · rw [if_neg hfe] at hm
          cases hl : s.free.getLast? with
          | none => rw [hl] at hm; exact absurd hm (by simp)
          | some c =>
              rw [hl] at hm
              simp only [Option.some.injEq, Prod.mk.injEq] at hm
              obtain ⟨rfl, rfl, rfl⟩ := hm
              have hsplit := List.dropLast_append_getLast? _ (Option.mem_def.mpr hl)
              rw [← hsplit] at hnd
              obtain ⟨hnfree, hnq, hdisj⟩ := List.nodup_append.mp hnd
              obtain ⟨hdl, hsing, hdisj2⟩ := List.nodup_append.mp hnfree
              constructor
              · intro hbf
                exact (hdisj2 hbf) (by simp)
              · intro hbq
                exact (hdisj (by simp)) (mem_nonNulls.mpr hbq)
  · intro b f q hm
    unfold dequeueAllPostMoment at hm
    dsimp only at hm
    rw [drainLoop_snd, drainLoop_fst] at hm
    cases hg : s.queue.getLast?.getD none with
    | none => rw [hg] at hm; exact absurd hm (by simp)
    | some c =>
        rw [hg] at hm
        simp only [Option.some.injEq, Prod.mk.injEq] at hm
        obtain ⟨rfl, rfl, rfl⟩ := hm
        have hgl : s.queue.getLast? = some (some c) := by
          cases hL : s.queue.getLast? with
          | none => rw [hL] at hg; exact absurd hg (by simp)
          | some e =>
              rw [hL] at hg
              simp only [Option.getD_some] at hg
              rw [hg]
        refine ⟨by simp, ?_⟩
        have hmemq : c ∈ nonNulls s.queue :=
          mem_nonNulls.mpr (getLast?_some_mem hgl)
        simp [hmemq]

/-- Witness for C2 (amended) at the concrete reachable state with one
pending frame: the buffer posted by `dequeue` there (buffer `1`) is in
neither the free pool (`[0]`) nor the drained queue (`[]`) at the postFrame
instant. -/
theorem C2_ownership_amended_witness :
    1 ∉ ([0] : List Nat) ∧ (some 1 : Option Nat) ∉ ([] : List (Option Nat)) :=
  (C2_ownership_amended (initPainter.enqueue (some 5))
      (PReachable.step PReachable.init (PStep.enq (some 5) _))).1
    1 [0] [] (by decide)

/-- C3 counterexample: after starting the painter and then pausing it (the
Active flag is down), a pending frame plus a `draw()` call still performs a
backend drawFrame - `PainterGL::draw` never consults `m_active`, so pause
does not freeze composition at the painter level. -/
theorem C3_counterexample :
    PReachable ((initPainter.enqueue (some 5)).start.pause) ∧
    ((initPainter.enqueue (some 5)).start.pause).active = false ∧
    ((initPainter.enqueue (some 5)).start.pause).started = true ∧
    (((initPainter.enqueue (some 5)).start.pause).draw false false).draws =
      ((initPainter.enqueue (some 5)).start.pause).draws + 1 :=
  ⟨PReachable.step
      (PReachable.step (PReachable.step PReachable.init (PStep.enq (some 5) _))
        (PStep.startStep _))
      (PStep.pauseStep _),
    by decide, by decide, by decide⟩

/-- C3 (amended): `PainterGL::draw` neither reads nor writes the
Active/Paused flag - a draw invoked while paused behaves exactly as when
active (the flag commutes with the draw step) - and each draw step keeps
the buffer pools a permutation of what they were (buffers are recycled,
never grown), so pausing alone does not gate composition; in the running
system draws stop while paused only because the producer stops posting. -/
theorem C3_draw_ignores_pause (s : PainterGL) (wfs vfw b : Bool) :
    ({ s with active := b } : PainterGL).draw wfs vfw =
      { s.draw wfs vfw with active := b } ∧
    ((s.draw wfs vfw).free ++ nonNulls (s.draw wfs vfw).queue).Perm
      (s.free ++ nonNulls s.queue) := by
  constructor
  · obtain ⟨free, queue, active, started, frameReady, needsUnlock, swapTimerActive,
      glValid, glCurrent, glOnPainterThread, hasContext, size, posts, draws, clears,
      surfaceSwaps, copies, frameEnds, scheduledDraws, nullCopy, ubEmptyDequeue⟩ := s
    cases queue with
    | nil => cases needsUnlock <;> rfl
    | cons e rest =>
        cases e <;> cases needsUnlock <;> cases wfs <;> cases vfw <;>
          cases swapTimerActive <;> rfl
  · exact pool_draw_perm wfs vfw s

/-- C4: the enqueue contract - a null source appends a null skip-marker
with no buffer taken and no copy; a non-null source takes the last buffer of
a non-empty free pool, else reclaims the front (oldest) entry of the pending
queue, copies the payload into it, and appends it to the queue (a reclaimed
null marker makes the copy target null and re-appends the marker). -/
theorem C4_enqueue_contract (s : PainterGL) (p b : Nat) (f : List Nat)
    (rest : List (Option Nat)) :
    (s.enqueue none = { s with queue := s.queue ++ [none] }) ∧
    (({ s with free := f ++ [b] } : PainterGL).enqueue (some p) =
      { s with free := f, copies := s.copies ++ [(b, p)],
               queue := s.queue ++ [some b] }) ∧
    (({ s with free := [], queue := some b :: rest } : PainterGL).enqueue (some p) =
      { s with free := [], queue := rest ++ [some b],
               copies := s.copies ++ [(b, p)] }) ∧
    (({ s with free := [], queue := none :: rest } : PainterGL).enqueue (some p) =
      { s with free := [], queue := rest ++ [none], nullCopy := true }) := by
  refine ⟨rfl, ?_, ?_, ?_⟩
  · exact enqueue_some_free_eq _ p rfl
  · exact enqueue_some_reclaim_eq _ p b rfl rfl
  · exact enqueue_some_nullfront_eq _ p rfl rfl

/-- C5: enqueuing a null source only appends a null marker (no buffer is
taken from any pool, no memcpy trace is added), and dequeuing a null marker
at the front consumes it silently: the free pool, the postFrame trace and
everything else are untouched. -/
theorem C5_null_noop (s : PainterGL) (rest : List (Option Nat)) :
    (s.enqueue none = { s with queue := s.queue ++ [none] }) ∧
    (({ s with queue := none :: rest } : PainterGL).dequeue =
      { s with queue := rest }) := by
  refine ⟨rfl, ?_⟩
  exact dequeue_none_eq _ rfl

/-- C6: contract of the pacing-timer expiry handler `PainterGL::swap` on
every reachable state (the GL context is valid in all of them): a composed
pending frame (`frameReady`) is presented to the surface and the flag
cleared, a still-held producer handshake (`needsUnlock`) is released, and
then an immediate redraw is scheduled when the pending queue is non-empty,
otherwise the single-shot timer is rearmed. -/
theorem C6_swap_contract (s : PainterGL) (h : PReachable s) :
    s.swap = { s with
      surfaceSwaps := s.surfaceSwaps + (if s.frameReady then 1 else 0)
      glCurrent := (if s.frameReady then true else s.glCurrent)
      frameReady := false
      frameEnds := s.frameEnds + (if s.needsUnlock then 1 else 0)
      needsUnlock := false
      swapTimerActive := (if s.queue.isEmpty then true else s.swapTimerActive)
      scheduledDraws := s.scheduledDraws + (if s.queue.isEmpty then 0 else 1) } :=
  swap_eq s (reachable_poolInv h).2.2

/-- Witness for C6 at the reachable state reached by enqueue, start, draw
(with `videoFrameWait` set): there `frameReady` and `needsUnlock` both hold
and the queue is empty, so the timer expiry presents the frame, releases the
handshake and rearms the timer. -/
theorem C6_swap_contract_witness :
    (((initPainter.enqueue (some 5)).start).draw false true).swap =
      { ((initPainter.enqueue (some 5)).start).draw false true with
        surfaceSwaps :=
          (((initPainter.enqueue (some 5)).start).draw false true).surfaceSwaps +
            (if (((initPainter.enqueue (some 5)).start).draw false true).frameReady
              then 1 else 0)
        glCurrent :=
          (if (((initPainter.enqueue (some 5)).start).draw false true).frameReady
            then true
            else (((initPainter.enqueue (some 5)).start).draw false true).glCurrent)
        frameReady := false
        frameEnds :=
          (((initPainter.enqueue (some 5)).start).draw false true).frameEnds +
            (if (((initPainter.enqueue (some 5)).start).draw false true).needsUnlock
              then 1 else 0)
        needsUnlock := false
        swapTimerActive :=
          (if (((initPainter.enqueue (some 5)).start).draw false true).queue.isEmpty
            then true
            else (((initPainter.enqueue
              (some 5)).start).draw false true).swapTimerActive)
        scheduledDraws :=
          (((initPainter.enqueue (some 5)).start).draw false true).scheduledDraws +
            (if (((initPainter.enqueue (some 5)).start).draw false true).queue.isEmpty
              then 0 else 1) } :=
  C6_swap_contract _
    (PReachable.step
      (PReachable.step (PReachable.step PReachable.init (PStep.enq (some 5) _))
        (PStep.startStep _))
      (PStep.drawStep false true _))

theorem stopDrawing_drawThread (d : DisplayGL) :
    d.stopDrawing.drawThread = false := by
  unfold DisplayGL.stopDrawing
  split
  · rfl
  · next h => simpa using h

theorem stopDrawing_dispContext (d : DisplayGL) :
    d.stopDrawing.dispContext = false := by
  unfold DisplayGL.stopDrawing
  split <;> rfl

/-- `stopDrawing` on an already-stopped display (no draw thread, controller
reference already dropped) changes nothing. -/
theorem stopDrawing_of_stopped {d : DisplayGL} (h1 : d.drawThread = false)
    (h2 : d.dispContext = false) : d.stopDrawing = d := by
  cases d
  simp only at h1 h2
  subst h1
  subst h2
  rfl

/-- C7: `DisplayGL::stopDrawing` is idempotent - after one completed stop,
a second stop finds `m_drawThread` null, skips the painter stop, the thread
teardown and the context re-acquisition entirely, and its only action
(releasing the controller reference) is already done, so the whole state -
painter, queue, free pool, backend traces and context ownership - is left
unchanged. -/
theorem C7_stopDrawing_idempotent (d : DisplayGL) :
    d.stopDrawing.stopDrawing = d.stopDrawing :=
  stopDrawing_of_stopped (stopDrawing_drawThread d) (stopDrawing_dispContext d)

/-- C8: in every reachable state, the free pool together with the non-null
pending entries is a permutation of the two constructor-allocated buffers
(so exactly two distinct live buffers exist, partitioned between the pools
with no duplication and no allocation), and every buffer ever handed to the
backend is one of those two. -/
theorem C8_bounded_pool (s : PainterGL) (h : PReachable s) :
    (s.free ++ nonNulls s.queue).Perm [0, 1] ∧
    s.free.length + (nonNulls s.queue).length = 2 ∧
    (s.free ++ nonNulls s.queue).Nodup ∧
    (∀ b ∈ s.posts, b = 0 ∨ b = 1) := by
  obtain ⟨h1, h2, h3⟩ := reachable_poolInv h
  refine ⟨h1, ?_, h1.nodup_iff.mpr (by decide), h2⟩
  have hlen := h1.length_eq
  simpa using hlen

/-- Witness for C8 at the freshly constructed painter. -/
theorem C8_bounded_pool_witness :
    (initPainter.free ++ nonNulls initPainter.queue).Perm [0, 1] ∧
    initPainter.free.length + (nonNulls initPainter.queue).length = 2 ∧
    (initPainter.free ++ nonNulls initPainter.queue).Nodup ∧
    (∀ b ∈ initPainter.posts, b = 0 ∨ b = 1) :=
  C8_bounded_pool initPainter PReachable.init

/-- C9: the claim is right and the code is wrong.  In the reachable state
produced by enqueuing a null frame and then two real frames (free pool
empty, null marker at the queue front), a further non-null enqueue reclaims
the null marker as its "destination buffer" and executes memcpy with a null
destination - undefined behavior - instead of a valid buffer. -/
theorem C9_null_memcpy :
    PReachable (((initPainter.enqueue none).enqueue (some 6)).enqueue (some 7)) ∧
    (((initPainter.enqueue none).enqueue (some 6)).enqueue (some 7)).free = [] ∧
    (((initPainter.enqueue none).enqueue (some 6)).enqueue (some 7)).queue.head? =
      some none ∧
    enqueueCopyMoment (some 8)
        (((initPainter.enqueue none).enqueue (some 6)).enqueue (some 7)) =
      some (none, [], [some 1, some 0]) ∧
    ((((initPainter.enqueue none).enqueue (some 6)).enqueue (some 7)).enqueue
        (some 8)).nullCopy = true :=
  ⟨PReachable.step
      (PReachable.step (PReachable.step PReachable.init (PStep.enq none _))
        (PStep.enq (some 6) _))
      (PStep.enq (some 7) _),
    by decide, by decide, by decide, by decide⟩

/-- C10: `DisplayGL::startDrawing` called while a draw thread already exists
returns at the initial guard: no field of the display or of its painter is
modified (no second thread, no controller rebinding, no queue or flag
change). -/
theorem C10_startDrawing_noop (d : DisplayGL) :
    ({ d with drawThread := true } : DisplayGL).startDrawing =
      { d with drawThread := true } :=
  rfl
